import Mathlib

/-!
Verification of the cohete resource-budget core: the memory budget ledger
(`src/memory.rs`), the quantization selector (`src/quantize.rs`) and the
thermal circuit breaker (`src/thermal.rs`), shallowly embedded in Lean.

Machine integers: Rust `u64` values are modelled as `Nat`; additions and
subtractions that the source performs with wrapping semantics
(`AtomicU64::fetch_add` / `fetch_sub`, and the `+` inside `available_mb`,
which wraps in release builds) carry an explicit reduction modulo `2^64`.
`u64::saturating_sub` is `Nat` truncated subtraction.
-/

/-- Two to the sixty-fourth power: the modulus of Rust `u64` arithmetic. -/
def U64 : Nat := 18446744073709551616

/-- Embedding of the variants of `Error` (src/error.rs) that the
budget ledger and the thermal path can produce.  `InsufficientMemory`
carries the requested and the available size in MB, exactly as the Rust
enum. -/
inductive Error where
  | InsufficientMemory (requested_mb : Nat) (available_mb : Nat)
  | ThermalExceeded (current_c : Rat) (threshold_c : Rat)
deriving DecidableEq, Repr

/-- Embedding of `MemoryBudget` (src/memory.rs).  The `AtomicU64` counter
`allocated` becomes a plain `Nat` field; atomicity is treated separately by
the interleaving model below. -/
structure MemoryBudget where
  total_mb : Nat
  reserved_mb : Nat
  allocated : Nat
deriving DecidableEq, Repr

/-- Embedding of `MemoryBudget::new`: records both arguments verbatim and
starts with `allocated = 0`; the source performs no validation of the pair. -/
def MemoryBudget.new (total_mb reserved_mb : Nat) : MemoryBudget :=
  { total_mb := total_mb, reserved_mb := reserved_mb, allocated := 0 }

/-- Embedding of `MemoryBudget::available_mb`:
`total_mb.saturating_sub(reserved_mb + allocated)`.  The inner `+` is a
`u64` addition, hence the `% U64`; the saturating subtraction is `Nat`
subtraction. -/
def MemoryBudget.available_mb (b : MemoryBudget) : Nat :=
  b.total_mb - (b.reserved_mb + b.allocated) % U64

/-- Embedding of `MemoryBudget::allocated_mb`. -/
def MemoryBudget.allocated_mb (b : MemoryBudget) : Nat :=
  b.allocated

/-- Embedding of `MemoryBudget::usable_mb`:
`total_mb.saturating_sub(reserved_mb)`. -/
def MemoryBudget.usable_mb (b : MemoryBudget) : Nat :=
  b.total_mb - b.reserved_mb

/-- Embedding of `MemoryGuard` (src/memory.rs): the RAII handle returned by
a successful allocation.  The `budget` back-reference is represented by
explicit state passing instead. -/
structure MemoryGuard where
  size_mb : Nat
deriving DecidableEq, Repr

/-- Embedding of `MemoryBudget::try_allocate`.  The Rust method mutates
`self.allocated` through a shared reference; here the updated budget is
returned alongside the result, and on the error path the budget is returned
unchanged (the source touches nothing before returning the error).
`fetch_add` wraps, hence the `% U64`. -/
def MemoryBudget.try_allocate (b : MemoryBudget) (size_mb : Nat) :
    Except Error MemoryGuard × MemoryBudget :=
  let available := b.available_mb
  if size_mb > available then
    (Except.error (Error.InsufficientMemory size_mb available), b)
  else
    (Except.ok { size_mb := size_mb },
     { b with allocated := (b.allocated + size_mb) % U64 })

/-- Embedding of `impl Drop for MemoryGuard`: `fetch_sub(size_mb)` on the
owning budget's counter, with `u64` wraparound (for `x, s < U64` the value
`(x + U64 - s) % U64` is exactly the wrapping subtraction `x - s`). -/
def MemoryGuard.drop (g : MemoryGuard) (b : MemoryBudget) : MemoryBudget :=
  { b with allocated := (b.allocated + U64 - g.size_mb % U64) % U64 }

/-!
Interleaving model of concurrent `try_allocate` calls.

In the source, `try_allocate` performs two separate atomic operations on
`self.allocated`: the `Acquire` load inside `available_mb` (the check) and
the `Release` `fetch_add` (the increment).  Other threads may run between
the two.  The model below splits each in-flight call at exactly this
granularity and lets an explicit schedule choose which call steps next.
-/

/-- State of one in-flight `try_allocate` call, at the atomic-operation
granularity of the source: `check` has not yet executed the load inside
`available_mb`; `add` has passed the size check and has the `fetch_add`
still pending; `run` records the call's outcome. -/
inductive AllocCall where
  | check (size : Nat)
  | add (size : Nat)
  | run (size : Nat) (success : Bool)
deriving DecidableEq, Repr

/-- Execute the next atomic operation of one call against the shared
budget, following the source of `try_allocate`: the check compares `size`
with `available_mb` as loaded now; the add performs the wrapping
`fetch_add`. -/
def AllocCall.stepCall (b : MemoryBudget) : AllocCall → MemoryBudget × AllocCall
  | .check size =>
      if size > b.available_mb then (b, .run size false) else (b, .add size)
  | .add size =>
      ({ b with allocated := (b.allocated + size) % U64 }, .run size true)
  | .run size r => (b, .run size r)

/-- Shared state of a group of concurrent `try_allocate` calls. -/
structure ConcState where
  budget : MemoryBudget
  calls : List AllocCall
deriving DecidableEq, Repr

/-- Let call number `i` execute its next atomic operation. -/
def ConcState.schedStep (s : ConcState) (i : Nat) : ConcState :=
  match s.calls[i]? with
  | none => s
  | some c =>
      let p := AllocCall.stepCall s.budget c
      { budget := p.1, calls := s.calls.set i p.2 }

/-- Run a whole schedule: each list element names the call that performs
its next atomic operation. -/
def ConcState.runSched (s : ConcState) : List Nat → ConcState
  | [] => s
  | i :: rest => ConcState.runSched (s.schedStep i) rest

/-!
Reachable ledger states.  `Reach t r b gs` says that budget state `b`,
with the multiset of live guard sizes `gs`, is reachable from
`MemoryBudget.new t r` by successful `try_allocate` calls and by dropping
(releasing) live guards, in any order.
-/

/-- States reachable from `MemoryBudget.new t r` through successful
allocations and releases of live guards; `gs` lists the sizes of the
guards currently alive. -/
inductive Reach (t r : Nat) : MemoryBudget → List Nat → Prop where
  | init : Reach t r (MemoryBudget.new t r) []
  | alloc {b : MemoryBudget} {gs : List Nat} {size : Nat} {g : MemoryGuard}
      {b' : MemoryBudget} :
      Reach t r b gs → b.try_allocate size = (Except.ok g, b') →
      Reach t r b' (g.size_mb :: gs)
  | release {b : MemoryBudget} {gs1 gs2 : List Nat} {s : Nat} :
      Reach t r b (gs1 ++ s :: gs2) →
      Reach t r (MemoryGuard.drop { size_mb := s } b) (gs1 ++ gs2)

/-!
Quantization (src/quantize.rs).  The only arithmetic the selector performs
on `f32` is `(model_f16_size_mb as f32) * level.memory_factor()` followed
by `as u64`.  Every `memory_factor` in the catalog is an exact multiple of
1/16, so the whole computation is modelled exactly over `Nat`:
`as f32` on a `u64` rounds to 24 significant bits (round to nearest, ties
to even); the product with `k/16` is the 24-bit rounding of `x * k`
divided by 16 (the division by the power of two only shifts the exponent
and is exact); `as u64` truncates toward zero and saturates at
`u64::MAX`.
-/

/-- Embedding of `QuantLevel` (src/quantize.rs). -/
inductive QuantLevel where
  | Q4_0
  | Q4_1
  | Q5_0
  | Q5_1
  | Q8_0
  | F16
  | F32
deriving DecidableEq, Repr

/-- Embedding of `QuantLevel::bits_per_param`. -/
def QuantLevel.bits_per_param : QuantLevel → Nat
  | .Q4_0 | .Q4_1 => 4
  | .Q5_0 | .Q5_1 => 5
  | .Q8_0 => 8
  | .F16 => 16
  | .F32 => 32

/-- Embedding of `QuantLevel::memory_factor`, scaled by 16.  The source
returns the `f32` constants 0.25, 0.3125, 0.5, 1.0 and 2.0; each is an
exactly representable multiple of 1/16, recorded here by its numerator
over 16. -/
def QuantLevel.memoryFactorNum16 : QuantLevel → Nat
  | .Q4_0 | .Q4_1 => 4
  | .Q5_0 | .Q5_1 => 5
  | .Q8_0 => 8
  | .F16 => 16
  | .F32 => 32

/-- Floor of the base-2 logarithm, computed by repeated halving with
structural fuel so that kernel reduction works; `log2Fuel f n` is exact
whenever `n < 2 ^ f`.  Every value this development feeds it stays far
below `2 ^ 128`. -/
def log2Fuel : Nat → Nat → Nat
  | 0, _ => 0
  | f + 1, n => if n < 2 then 0 else log2Fuel f (n / 2) + 1

/-- Round `n` to the grid of multiples of `p`, to nearest with ties to
even (the IEEE-754 default rounding of the discarded low bits). -/
def rneAux (n p : Nat) : Nat :=
  (if 2 * (n % p) > p ∨ (2 * (n % p) = p ∧ n / p % 2 = 1) then n / p + 1
   else n / p) * p

/-- Round a natural number to 24 significant bits, round to nearest with
ties to even: the significand-rounding step of conversion to `f32`
(exponents stay in the normal range for every value at play here). -/
def rne24 (n : Nat) : Nat :=
  if n < 2 ^ 24 then n
  else rneAux n (2 ^ (log2Fuel 128 n - 23))

/-- Exact value of `(m as f32 * factor) as u64` from
`JetsonQuantizer::select_for_budget`, where `factor = k/16`:
round `m` to `f32`, multiply by `k/16` in `f32` (one more 24-bit
rounding), then truncate toward zero, saturating at `u64::MAX`. -/
def estimatedSize (m k : Nat) : Nat :=
  min (rne24 (rne24 m * k) / 16) (U64 - 1)

/-- The `for level in [...]` loop body of
`JetsonQuantizer::select_for_budget`: return the first level of the
catalog whose estimated size fits `avail`, else fall through. -/
def selectLoop (m avail : Nat) : List QuantLevel → QuantLevel
  | [] => QuantLevel.Q4_0
  | l :: ls =>
      if estimatedSize m l.memoryFactorNum16 ≤ avail then l
      else selectLoop m avail ls

/-- Embedding of `JetsonQuantizer::select_for_budget`: reads
`budget.available_mb()`, scans the fixed catalog from least to most lossy
and returns the first fitting level, defaulting to `Q4_0`. -/
def JetsonQuantizer.select_for_budget (model_f16_size_mb : Nat)
    (budget : MemoryBudget) : QuantLevel :=
  selectLoop model_f16_size_mb budget.available_mb
    [QuantLevel.F16, QuantLevel.Q8_0, QuantLevel.Q5_1, QuantLevel.Q5_0,
     QuantLevel.Q4_1, QuantLevel.Q4_0]

/-- Modelled from the spec (not from the source; for comparison only):
the selector as §4.3 describes it, with
`estimated_size = full_precision_size × memory_factor` "rounded down to
integer MB", i.e. the exact floor `m * k / 16`, in place of the `f32`
computation the source performs. -/
def select_for_budget_spec (m avail : Nat) : QuantLevel :=
  match [QuantLevel.F16, QuantLevel.Q8_0, QuantLevel.Q5_1, QuantLevel.Q5_0,
         QuantLevel.Q4_1, QuantLevel.Q4_0].find?
      (fun l => m * l.memoryFactorNum16 / 16 ≤ avail) with
  | some l => l
  | none => QuantLevel.Q4_0

/-!
Thermal policy and circuit breaker (src/thermal.rs).  The code performs no
arithmetic on temperatures, only comparisons, so `f32` temperatures are
modelled as rationals (order-faithful).  The temperature source
(`TegraMonitor::sample`, a collaborator per the spec; the checked-in body
is a placeholder returning a constant reading) is abstracted as a stream
`samples : Nat → Rat` of successive GPU readings; sample `i` is the
reading produced by the `i`-th call to `sample`.  The unbounded
`wait_for_cooldown` loop is given explicit fuel: `none` models a run that
has not yet observed a cooldown sample.
-/

/-- Embedding of `ThermalPolicy` (src/thermal.rs). -/
structure ThermalPolicy where
  threshold_c : Rat
  cooldown_c : Rat
  check_interval_ms : Nat
deriving DecidableEq, Repr

/-- Embedding of `ThermalPolicy::conservative`. -/
def ThermalPolicy.conservative : ThermalPolicy :=
  { threshold_c := 65, cooldown_c := 55, check_interval_ms := 500 }

/-- Embedding of `ThermalPolicy::aggressive`. -/
def ThermalPolicy.aggressive : ThermalPolicy :=
  { threshold_c := 75, cooldown_c := 65, check_interval_ms := 1000 }

/-- Embedding of `ThermalPolicy::custom`: stores the three arguments
verbatim, with no validation. -/
def ThermalPolicy.custom (threshold_c cooldown_c : Rat)
    (check_interval_ms : Nat) : ThermalPolicy :=
  { threshold_c := threshold_c, cooldown_c := cooldown_c,
    check_interval_ms := check_interval_ms }

/-- Embedding of `impl Default for ThermalPolicy`. -/
def ThermalPolicy.default : ThermalPolicy :=
  ThermalPolicy.conservative

/-- Embedding of `TegraMonitor::wait_for_cooldown` over the sample stream:
starting at stream position `i`, repeatedly sample and compare with
`cooldown_c`; on a qualifying sample return the next stream position.
Fuel bounds the number of loop iterations modelled. -/
def TegraMonitor.wait_for_cooldown (p : ThermalPolicy) (samples : Nat → Rat)
    (i : Nat) : Nat → Option Nat
  | 0 => none
  | fuel + 1 =>
      if samples i ≤ p.cooldown_c then some (i + 1)
      else TegraMonitor.wait_for_cooldown p samples (i + 1) fuel

/-- Embedding of `ThermalCircuitBreaker::guard`: one `is_open` check
(sample 0 compared with `threshold_c`); if open, `wait_for_cooldown` to
completion; then the work future runs.  The work is a value `work` of
type `Except Error T` that plays no part in the thermal logic; the result
pairs the stream position at which the work starts (= the number of
samples taken before it) with the work's own outcome, returned verbatim. -/
def ThermalCircuitBreaker.guard {T : Type} (p : ThermalPolicy)
    (samples : Nat → Rat) (work : Except Error T) (fuel : Nat) :
    Option (Nat × Except Error T) :=
  if samples 0 > p.threshold_c then
    match TegraMonitor.wait_for_cooldown p samples 1 fuel with
    | none => none
    | some i => some (i, work)
  else
    some (1, work)

/-- C2: for every well-formed budget state and every `size ≤ available_mb`,
`try_allocate size` succeeds, returns a guard of exactly that size, and
`available_mb` of the post state is the pre-call `available_mb` minus
`size`. -/
theorem C2_allocate_success (b : MemoryBudget) (size : Nat)
    (ht : b.total_mb < U64) (hr : b.reserved_mb < U64) (ha : b.allocated < U64)
    (hs : size ≤ b.available_mb) :
    (b.try_allocate size).1 = Except.ok { size_mb := size } ∧
    (b.try_allocate size).2.available_mb = b.available_mb - size := by
  have hcond : ¬ size > b.available_mb := Nat.not_lt.mpr hs
  have h1 : b.try_allocate size =
      (Except.ok { size_mb := size },
       { b with allocated := (b.allocated + size) % U64 }) := by
    simp only [MemoryBudget.try_allocate, if_neg hcond]
  rw [h1]
  refine ⟨rfl, ?_⟩
  simp only [MemoryBudget.available_mb, U64] at *
  omega

/-- C2 witness: instantiation at the Orin Nano 8GB budget with a 4000 MB
request. -/
theorem C2_allocate_success_witness :
    ((MemoryBudget.new 8192 2048).try_allocate 4000).1 =
      Except.ok { size_mb := 4000 } ∧
    ((MemoryBudget.new 8192 2048).try_allocate 4000).2.available_mb =
      (MemoryBudget.new 8192 2048).available_mb - 4000 :=
  C2_allocate_success (MemoryBudget.new 8192 2048) 4000 (by decide) (by decide)
    (by decide) (by decide)

/-- C3: for every budget state and every `size > available_mb`,
`try_allocate size` fails with `InsufficientMemory` carrying the requested
size and the available amount observed at the check, and leaves the budget
(in particular the `allocated` counter) unchanged. -/
theorem C3_allocate_insufficient (b : MemoryBudget) (size : Nat)
    (hs : size > b.available_mb) :
    b.try_allocate size =
      (Except.error (Error.InsufficientMemory size b.available_mb), b) := by
  simp only [MemoryBudget.try_allocate, if_pos hs]

/-- C3 witness: a 7000 MB request against the Orin Nano 8GB budget (6144 MB
available). -/
theorem C3_allocate_insufficient_witness :
    (MemoryBudget.new 8192 2048).try_allocate 7000 =
      (Except.error (Error.InsufficientMemory 7000 6144), MemoryBudget.new 8192 2048) := by
  have h := C3_allocate_insufficient (MemoryBudget.new 8192 2048) 7000 (by decide)
  exact h.trans (by norm_num [MemoryBudget.new, MemoryBudget.available_mb, U64])

/-- C4: dropping the guard returned by a successful allocation restores
both `allocated_mb` and `available_mb` to their pre-allocation values. -/
theorem C4_release_inverse (b : MemoryBudget) (size : Nat) (g : MemoryGuard)
    (ht : b.total_mb < U64) (hr : b.reserved_mb < U64) (ha : b.allocated < U64)
    (h : (b.try_allocate size).1 = Except.ok g) :
    (g.drop (b.try_allocate size).2).allocated_mb = b.allocated_mb ∧
    (g.drop (b.try_allocate size).2).available_mb = b.available_mb := by
  by_cases hc : size > b.available_mb
  · simp [MemoryBudget.try_allocate, if_pos hc] at h
  · simp only [MemoryBudget.try_allocate, if_neg hc] at h ⊢
    cases h
    have hsize : size < U64 := by
      simp only [MemoryBudget.available_mb, U64] at *
      omega
    simp only [MemoryGuard.drop, MemoryBudget.allocated_mb,
      MemoryBudget.available_mb, U64] at *
    constructor
    · omega
    · omega

/-- C4 witness: allocate 4000 MB on the Orin Nano 8GB budget and drop the
guard. -/
theorem C4_release_inverse_witness :
    (MemoryGuard.drop { size_mb := 4000 }
        ((MemoryBudget.new 8192 2048).try_allocate 4000).2).allocated_mb =
      (MemoryBudget.new 8192 2048).allocated_mb ∧
    (MemoryGuard.drop { size_mb := 4000 }
        ((MemoryBudget.new 8192 2048).try_allocate 4000).2).available_mb =
      (MemoryBudget.new 8192 2048).available_mb :=
  C4_release_inverse (MemoryBudget.new 8192 2048) 4000 { size_mb := 4000 }
    (by decide) (by decide) (by decide) rfl

/-- C1: the check and the increment in `try_allocate` are two separate
atomic operations, not one atomic step.  Under the interleaving in which
two concurrent 6144 MB allocations against `MemoryBudget::new(8192, 2048)`
(6144 MB available) both execute the `available_mb` load before either
executes the `fetch_add`, both calls succeed and `allocated` reaches
12288 MB — twice the available budget — refuting the claimed concurrent
bound. -/
theorem C1_check_increment_race :
    ConcState.runSched
        { budget := MemoryBudget.new 8192 2048,
          calls := [AllocCall.check 6144, AllocCall.check 6144] }
        [0, 1, 0, 1] =
      { budget := { total_mb := 8192, reserved_mb := 2048, allocated := 12288 },
        calls := [AllocCall.run 6144 true, AllocCall.run 6144 true] } ∧
    (MemoryBudget.new 8192 2048).available_mb = 6144 ∧
    6144 + 6144 > 6144 := by
  refine ⟨by decide, by decide, by decide⟩

/-- C10: `MemoryBudget::new` records any `(total_mb, reserved_mb)` pair
verbatim with no validation; `available_mb` and `usable_mb` saturate at
zero whenever `reserved_mb` plus `allocated` reaches `total_mb`
(respectively `reserved_mb` reaches `total_mb`); and `try_allocate 0`
succeeds on every state, leaving the budget unchanged — in particular when
`available_mb = 0`. -/
theorem C10_no_validation_saturating :
    (∀ t r : Nat, MemoryBudget.new t r =
      { total_mb := t, reserved_mb := r, allocated := 0 }) ∧
    (∀ b : MemoryBudget, b.reserved_mb + b.allocated < U64 →
      b.total_mb ≤ b.reserved_mb + b.allocated → b.available_mb = 0) ∧
    (∀ b : MemoryBudget, b.total_mb ≤ b.reserved_mb → b.usable_mb = 0) ∧
    (∀ b : MemoryBudget, b.allocated < U64 →
      (b.try_allocate 0).1 = Except.ok { size_mb := 0 } ∧
      (b.try_allocate 0).2 = b) := by
  refine ⟨fun t r => rfl, ?_, ?_, ?_⟩
  · intro b hwf hge
    simp only [MemoryBudget.available_mb, U64] at *
    omega
  · intro b h
    simp only [MemoryBudget.usable_mb]
    omega
  · intro b ha
    have hcond : ¬ (0 : Nat) > b.available_mb := by omega
    simp only [MemoryBudget.try_allocate, if_neg hcond]
    refine ⟨trivial, ?_⟩
    cases b with
    | mk t r a =>
      simp only [MemoryBudget.mk.injEq, and_true, true_and]
      simpa using Nat.mod_eq_of_lt ha

/-- C10 witness: a budget with `reserved > total` (accepted unvalidated,
zero available and usable memory) on which a zero-size allocation still
succeeds. -/
theorem C10_no_validation_saturating_witness :
    MemoryBudget.new 1024 4096 =
      { total_mb := 1024, reserved_mb := 4096, allocated := 0 } ∧
    (MemoryBudget.new 1024 4096).available_mb = 0 ∧
    (MemoryBudget.new 1024 4096).usable_mb = 0 ∧
    ((MemoryBudget.new 1024 4096).try_allocate 0).1 =
      Except.ok { size_mb := 0 } ∧
    ((MemoryBudget.new 1024 4096).try_allocate 0).2 =
      MemoryBudget.new 1024 4096 := by
  refine ⟨C10_no_validation_saturating.1 1024 4096, ?_, ?_, ?_⟩
  · exact C10_no_validation_saturating.2.1 (MemoryBudget.new 1024 4096)
      (by decide) (by decide)
  · exact C10_no_validation_saturating.2.2.1 (MemoryBudget.new 1024 4096)
      (by decide)
  · exact C10_no_validation_saturating.2.2.2 (MemoryBudget.new 1024 4096)
      (by decide)

/-- C5 counterexample: `MemoryBudget::new` does not validate
`reserved ≤ total`.  On `new(0, 1)` the zero-size allocation succeeds, yet
afterwards `allocated + reserved ≤ total` is false, refuting the claimed
invariant as stated for arbitrary constructor arguments. -/
theorem C5_invariant_counterexample :
    ((MemoryBudget.new 0 1).try_allocate 0).1 = Except.ok { size_mb := 0 } ∧
    ¬ (((MemoryBudget.new 0 1).try_allocate 0).2.allocated +
        ((MemoryBudget.new 0 1).try_allocate 0).2.reserved_mb ≤
        ((MemoryBudget.new 0 1).try_allocate 0).2.total_mb) := by
  exact ⟨rfl, by decide⟩

/-- Invariant of reachable ledger states: when the constructor arguments
satisfy `reserved ≤ total < 2^64`, every reachable state keeps the original
`total` and `reserved`, its `allocated` counter equals the sum of the live
guard sizes, and that sum plus `reserved` never exceeds `total`. -/
theorem Reach.invariant {t r : Nat} {b : MemoryBudget} {gs : List Nat}
    (hreach : Reach t r b gs) (hrt : r ≤ t) (htw : t < U64) :
    b.total_mb = t ∧ b.reserved_mb = r ∧ b.allocated = gs.sum ∧
    gs.sum + r ≤ t := by
  induction hreach with
  | init =>
    refine ⟨rfl, rfl, rfl, ?_⟩
    simpa using hrt
  | alloc hre halloc ih =>
    obtain ⟨iht, ihr, iha, ihs⟩ := ih
    rename_i b gs size g b'
    by_cases hc : size > b.available_mb
    · simp [MemoryBudget.try_allocate, if_pos hc] at halloc
    · simp only [MemoryBudget.try_allocate, if_neg hc, Prod.mk.injEq,
        Except.ok.injEq] at halloc
      obtain ⟨hg, hb'⟩ := halloc
      subst hb'
      subst hg
      simp only [MemoryBudget.available_mb, U64, List.sum_cons] at *
      refine ⟨iht, ihr, ?_, ?_⟩ <;> omega
  | release hre ih =>
    obtain ⟨iht, ihr, iha, ihs⟩ := ih
    rename_i b gs1 gs2 s
    simp only [MemoryGuard.drop, MemoryBudget.available_mb, U64,
      List.sum_append, List.sum_cons] at *
    refine ⟨iht, ihr, ?_, ?_⟩ <;> omega

/-- C5 (amended: requires the constructor arguments to satisfy
`reserved_mb ≤ total_mb`, which `new` itself does not validate — see the
counterexample): in every state reachable from `new total reserved` by
successful allocations and releases, `0 ≤ allocated`,
`allocated + reserved ≤ total`, and `available_mb` equals
`total − reserved − allocated` floored at zero. -/
theorem C5_invariant (t r : Nat) (b : MemoryBudget) (gs : List Nat)
    (hreach : Reach t r b gs) (hrt : r ≤ t) (htw : t < U64) :
    0 ≤ b.allocated ∧ b.allocated + b.reserved_mb ≤ b.total_mb ∧
    b.available_mb = b.total_mb - b.reserved_mb - b.allocated := by
  obtain ⟨h1, h2, h3, h4⟩ := Reach.invariant hreach hrt htw
  refine ⟨Nat.zero_le _, by omega, ?_⟩
  simp only [MemoryBudget.available_mb, U64] at *
  omega

/-- C5 witness: the state after allocating 4000 MB from the Orin Nano 8GB
budget. -/
theorem C5_invariant_witness :
    0 ≤ (MemoryBudget.mk 8192 2048 4000).allocated ∧
    (MemoryBudget.mk 8192 2048 4000).allocated +
      (MemoryBudget.mk 8192 2048 4000).reserved_mb ≤
      (MemoryBudget.mk 8192 2048 4000).total_mb ∧
    (MemoryBudget.mk 8192 2048 4000).available_mb =
      (MemoryBudget.mk 8192 2048 4000).total_mb -
      (MemoryBudget.mk 8192 2048 4000).reserved_mb -
      (MemoryBudget.mk 8192 2048 4000).allocated := by
  have halloc : (MemoryBudget.new 8192 2048).try_allocate 4000 =
      (Except.ok { size_mb := 4000 }, MemoryBudget.mk 8192 2048 4000) := by
    simp [MemoryBudget.try_allocate, MemoryBudget.new,
      MemoryBudget.available_mb, U64]
  exact C5_invariant 8192 2048 _ _ (Reach.alloc Reach.init halloc)
    (by decide) (by decide)

/-- On inputs below the fuel bound, `log2Fuel` brackets its argument
between consecutive powers of two. -/
theorem log2Fuel_bounds (f n : Nat) (h1 : 1 ≤ n) (h2 : n < 2 ^ f) :
    2 ^ log2Fuel f n ≤ n ∧ n < 2 ^ (log2Fuel f n + 1) := by
  induction f generalizing n with
  | zero => omega
  | succ f ih =>
    simp only [log2Fuel]
    by_cases hn : n < 2
    · simp only [if_pos hn]
      constructor <;> simp <;> omega
    · simp only [if_neg hn]
      have hh : 1 ≤ n / 2 := by omega
      have hlt : n / 2 < 2 ^ f := by
        rw [pow_succ] at h2
        omega
      obtain ⟨hl, hu⟩ := ih (n / 2) hh hlt
      constructor
      · rw [pow_succ]
        omega
      · rw [pow_succ, pow_succ] at *
        omega

/-- Rounding to the grid of multiples of `p` moves by at most one grid
step upward from the floored value. -/
theorem rneAux_bounds (n p : Nat) :
    n / p * p ≤ rneAux n p ∧ rneAux n p ≤ (n / p + 1) * p := by
  unfold rneAux
  split
  · exact ⟨Nat.mul_le_mul_right p (Nat.le_succ _), Nat.le_refl _⟩
  · exact ⟨Nat.le_refl _, Nat.mul_le_mul_right p (Nat.le_succ _)⟩

/-- Rounding to 24 bits is the identity below `2 ^ 24`. -/
theorem rne24_eq_of_lt {n : Nat} (h : n < 2 ^ 24) : rne24 n = n := by
  unfold rne24
  rw [if_pos h]

/-- Rounding to 24 bits never drops below `min n (2 ^ 23)` (inputs bounded
by the fuel budget). -/
theorem rne24_ge (n : Nat) (hn : n < 2 ^ 128) : min n (2 ^ 23) ≤ rne24 n := by
  by_cases h : n < 2 ^ 24
  · rw [rne24_eq_of_lt h]
    exact Nat.min_le_left _ _
  · simp only [rne24, if_neg h]
    have h1 : 1 ≤ n := by omega
    obtain ⟨hl, hu⟩ := log2Fuel_bounds 128 n h1 hn
    have hL24 : 24 ≤ log2Fuel 128 n := by
      by_contra hc
      push_neg at hc
      have : n < 2 ^ 24 :=
        lt_of_lt_of_le hu (Nat.pow_le_pow_right (by norm_num) (by omega))
      omega
    have hq : 2 ^ 23 ≤ n / 2 ^ (log2Fuel 128 n - 23) := by
      rw [Nat.le_div_iff_mul_le (Nat.pos_pow_of_pos _ (by norm_num))]
      calc 2 ^ 23 * 2 ^ (log2Fuel 128 n - 23)
          = 2 ^ (23 + (log2Fuel 128 n - 23)) := by rw [pow_add]
        _ = 2 ^ log2Fuel 128 n := by congr 1; omega
        _ ≤ n := hl
    calc min n (2 ^ 23) ≤ 2 ^ 23 := Nat.min_le_right _ _
      _ = 2 ^ 23 * 1 := (Nat.mul_one _).symm
      _ ≤ n / 2 ^ (log2Fuel 128 n - 23) * 2 ^ (log2Fuel 128 n - 23) :=
          Nat.mul_le_mul hq (Nat.one_le_two_pow)
      _ ≤ rneAux n (2 ^ (log2Fuel 128 n - 23)) :=
          (rneAux_bounds n _).1

/-- Rounding to 24 bits at most doubles its argument (inputs bounded by
the fuel budget). -/
theorem rne24_le (n : Nat) (hn : n < 2 ^ 128) : rne24 n ≤ 2 * n := by
  by_cases h : n < 2 ^ 24
  · rw [rne24_eq_of_lt h]
    omega
  · simp only [rne24, if_neg h]
    have h1 : 1 ≤ n := by omega
    obtain ⟨hl, hu⟩ := log2Fuel_bounds 128 n h1 hn
    have hp : 2 ^ (log2Fuel 128 n - 23) ≤ n :=
      le_trans (Nat.pow_le_pow_right (by norm_num) (by omega)) hl
    calc rneAux n (2 ^ (log2Fuel 128 n - 23))
        ≤ (n / 2 ^ (log2Fuel 128 n - 23) + 1) * 2 ^ (log2Fuel 128 n - 23) :=
          (rneAux_bounds n _).2
      _ = n / 2 ^ (log2Fuel 128 n - 23) * 2 ^ (log2Fuel 128 n - 23) +
          2 ^ (log2Fuel 128 n - 23) := by ring
      _ ≤ n + n := by
          have := Nat.div_mul_le_self n (2 ^ (log2Fuel 128 n - 23))
          omega
      _ = 2 * n := by ring

/-- C6 (amended: the estimated size is the `f32` computation
`(m as f32) * memory_factor` truncated to `u64`; this equals
`⌊m × factor⌋` whenever `m × (16 × factor) < 2 ^ 24` — which covers the
concrete 14000 MB / 6144 MB case — but can differ for larger models, see
the counterexample): the selector scans F16, Q8_0, Q5_1, Q5_0, Q4_1, Q4_0
in that order, returns the first level whose estimated size fits the
available budget, and otherwise falls back to Q4_0; on a 14000 MB
full-precision model with 6144 MB available it returns Q5_1
(factor 0.3125). -/
theorem C6_select_first_fit :
    (∀ (m : Nat) (b : MemoryBudget), JetsonQuantizer.select_for_budget m b =
      (if estimatedSize m QuantLevel.F16.memoryFactorNum16 ≤ b.available_mb
       then QuantLevel.F16
       else if estimatedSize m QuantLevel.Q8_0.memoryFactorNum16 ≤
           b.available_mb then QuantLevel.Q8_0
       else if estimatedSize m QuantLevel.Q5_1.memoryFactorNum16 ≤
           b.available_mb then QuantLevel.Q5_1
       else if estimatedSize m QuantLevel.Q5_0.memoryFactorNum16 ≤
           b.available_mb then QuantLevel.Q5_0
       else if estimatedSize m QuantLevel.Q4_1.memoryFactorNum16 ≤
           b.available_mb then QuantLevel.Q4_1
       else QuantLevel.Q4_0)) ∧
    (∀ m k : Nat, 1 ≤ k → m * k < 2 ^ 24 →
      estimatedSize m k = m * k / 16) ∧
    JetsonQuantizer.select_for_budget 14000 (MemoryBudget.new 8192 2048) =
      QuantLevel.Q5_1 := by
  refine ⟨?_, ?_, by decide⟩
  · intro m b
    simp only [JetsonQuantizer.select_for_budget, selectLoop, ite_self]
  · intro m k hk hmk
    have hm1 : m * 1 ≤ m * k := Nat.mul_le_mul (Nat.le_refl m) hk
    have hm : m < 2 ^ 24 := by omega
    simp only [estimatedSize, rne24_eq_of_lt hm, rne24_eq_of_lt hmk, U64]
    omega

/-- C6 counterexample: for a 33554435 MB model and 8388608 MB available,
the spec's floor arithmetic would accept Q4_1
(⌊33554435 × 0.25⌋ = 8388608 fits), but the source's `f32` computation
rounds 33554435 up to 33554436, estimates 8388609 MB, rejects every level
and returns Q4_0. -/
theorem C6_select_first_fit_counterexample :
    JetsonQuantizer.select_for_budget 33554435 (MemoryBudget.new 8388608 0) =
      QuantLevel.Q4_0 ∧
    select_for_budget_spec 33554435
      (MemoryBudget.new 8388608 0).available_mb = QuantLevel.Q4_1 ∧
    33554435 * QuantLevel.Q4_1.memoryFactorNum16 / 16 ≤
      (MemoryBudget.new 8388608 0).available_mb := by
  refine ⟨by decide, by decide, by decide⟩

/-- C6 witness: the `f32` estimate coincides with the exact floor on the
14000 MB model, which selects Q5_1; on a 20000 MB model the first-fit
characterization yields Q4_1. -/
theorem C6_select_first_fit_witness :
    estimatedSize 14000 5 = 4375 ∧
    JetsonQuantizer.select_for_budget 14000 (MemoryBudget.new 8192 2048) =
      QuantLevel.Q5_1 ∧
    JetsonQuantizer.select_for_budget 20000 (MemoryBudget.new 8192 2048) =
      QuantLevel.Q4_1 := by
  refine ⟨?_, C6_select_first_fit.2.2, ?_⟩
  · have h := C6_select_first_fit.2.1 14000 5 (by decide) (by decide)
    rw [h]
  · have h := C6_select_first_fit.1 20000 (MemoryBudget.new 8192 2048)
    rw [h]
    decide

/-- C7 (amended: for full-precision sizes of at least 4 MB; for sizes 0–3
MB the estimated size rounds down to 0 MB, "fits" the zero budget, and a
less aggressive level is returned — see the counterexample): with 0 MB
available, the selector returns Q4_0 for every full-precision size
≥ 4 MB, whether or not it fits. -/
theorem C7_zero_budget (m : Nat) (b : MemoryBudget) (hm : 4 ≤ m)
    (hmw : m < U64) (hz : b.available_mb = 0) :
    JetsonQuantizer.select_for_budget m b = QuantLevel.Q4_0 := by
  have hm64 : m < 18446744073709551616 := by
    simpa [U64] using hmw
  have hmbound : m < 2 ^ 128 := by
    omega
  have hkey : ∀ k : Nat, 4 ≤ k → k ≤ 32 → ¬ estimatedSize m k ≤ 0 := by
    intro k hk4 hk32
    have hx4 : 4 ≤ rne24 m :=
      le_trans (Nat.le_min.mpr ⟨hm, by norm_num⟩) (rne24_ge m hmbound)
    have hn16 : 16 ≤ rne24 m * k := Nat.mul_le_mul hx4 hk4
    have hnb : rne24 m * k < 2 ^ 128 := by
      have h1 : rne24 m * k ≤ 2 * m * 32 :=
        Nat.mul_le_mul (rne24_le m hmbound) hk32
      omega
    have hr16 : 16 ≤ rne24 (rne24 m * k) :=
      le_trans (Nat.le_min.mpr ⟨hn16, by norm_num⟩) (rne24_ge _ hnb)
    have hdiv : 1 ≤ rne24 (rne24 m * k) / 16 := by omega
    simp only [estimatedSize, U64]
    omega
  have h16 := hkey 16 (by norm_num) (by norm_num)
  have h8 := hkey 8 (by norm_num) (by norm_num)
  have h5 := hkey 5 (by norm_num) (by norm_num)
  have h4 := hkey 4 (by norm_num) (by norm_num)
  simp only [JetsonQuantizer.select_for_budget, selectLoop,
    QuantLevel.memoryFactorNum16, hz, if_neg h16, if_neg h8, if_neg h5,
    if_neg h4, ite_self]

/-- C7 counterexample: with 0 MB available and a 1 MB full-precision
size, the Q8_0 estimate `⌊1 × 0.5⌋ = 0` "fits", so the selector returns
Q8_0, not the most aggressive Q4_0. -/
theorem C7_zero_budget_counterexample :
    (MemoryBudget.new 0 0).available_mb = 0 ∧
    JetsonQuantizer.select_for_budget 1 (MemoryBudget.new 0 0) =
      QuantLevel.Q8_0 ∧
    QuantLevel.Q8_0 ≠ QuantLevel.Q4_0 := by
  refine ⟨by decide, by decide, by decide⟩

/-- C7 witness: a 14000 MB model against an empty budget falls through to
Q4_0. -/
theorem C7_zero_budget_witness :
    JetsonQuantizer.select_for_budget 14000 (MemoryBudget.new 0 0) =
      QuantLevel.Q4_0 :=
  C7_zero_budget 14000 (MemoryBudget.new 0 0) (by decide) (by decide)
    (by decide)

/-- When `wait_for_cooldown` returns, the qualifying sample is the one
just before the returned stream position, every sample strictly before it
(from the start position on) exceeded `cooldown_c`, and at least one
sample was taken. -/
theorem wait_for_cooldown_first (p : ThermalPolicy) (samples : Nat → Rat)
    (fuel : Nat) :
    ∀ j i : Nat, TegraMonitor.wait_for_cooldown p samples j fuel = some i →
      j < i ∧ samples (i - 1) ≤ p.cooldown_c ∧
      ∀ k, j ≤ k → k < i - 1 → p.cooldown_c < samples k := by
  induction fuel with
  | zero =>
    intro j i h
    simp [TegraMonitor.wait_for_cooldown] at h
  | succ fuel ih =>
    intro j i h
    simp only [TegraMonitor.wait_for_cooldown] at h
    by_cases hc : samples j ≤ p.cooldown_c
    · rw [if_pos hc] at h
      cases h
      refine ⟨by omega, by simpa using hc, ?_⟩
      intro k hk1 hk2
      exact absurd hk2 (by omega)
    · rw [if_neg hc] at h
      obtain ⟨h1, h2, h3⟩ := ih (j + 1) i h
      refine ⟨by omega, h2, ?_⟩
      intro k hk1 hk2
      by_cases hkj : k = j
      · subst hkj
        exact lt_of_not_le hc
      · exact h3 k (by omega) hk2

/-- C8: `guard` checks the thermal state exactly once, at the start
(sample 0).  If sample 0 is within `threshold_c`, the work runs
immediately, after that single sample.  If sample 0 exceeds
`threshold_c`, the work runs only once a later sample is at most
`cooldown_c`, every sample strictly between the initial check and the
qualifying one exceeding `cooldown_c`.  Whenever `guard` completes it
returns the work's own outcome verbatim, and the point at which the work
starts is independent of the work itself — no thermal re-check happens
while the work runs. -/
theorem C8_guard_once_then_work (T : Type) (p : ThermalPolicy)
    (samples : Nat → Rat) (work : Except Error T) (fuel : Nat) :
    (∀ (i : Nat) (w : Except Error T),
      ThermalCircuitBreaker.guard p samples work fuel = some (i, w) →
      w = work ∧
      ∀ work' : Except Error T,
        ThermalCircuitBreaker.guard p samples work' fuel = some (i, work')) ∧
    (samples 0 ≤ p.threshold_c →
      ThermalCircuitBreaker.guard p samples work fuel = some (1, work)) ∧
    (p.threshold_c < samples 0 →
      ∀ (i : Nat) (w : Except Error T),
        ThermalCircuitBreaker.guard p samples work fuel = some (i, w) →
        2 ≤ i ∧ samples (i - 1) ≤ p.cooldown_c ∧
        ∀ k, 1 ≤ k → k < i - 1 → p.cooldown_c < samples k) := by
  refine ⟨?_, ?_, ?_⟩
  · intro i w h
    by_cases h0 : samples 0 > p.threshold_c
    · simp only [ThermalCircuitBreaker.guard, if_pos h0] at h ⊢
      cases hw : TegraMonitor.wait_for_cooldown p samples 1 fuel with
      | none => rw [hw] at h; cases h
      | some j =>
          rw [hw] at h
          cases h
          exact ⟨rfl, fun work' => rfl⟩
    · simp only [ThermalCircuitBreaker.guard, if_neg h0] at h ⊢
      cases h
      exact ⟨rfl, fun work' => rfl⟩
  · intro h0
    have hn : ¬ samples 0 > p.threshold_c := not_lt.mpr h0
    simp only [ThermalCircuitBreaker.guard, if_neg hn]
  · intro h0 i w h
    simp only [ThermalCircuitBreaker.guard, if_pos h0] at h
    cases hw : TegraMonitor.wait_for_cooldown p samples 1 fuel with
    | none => rw [hw] at h; cases h
    | some j =>
        rw [hw] at h
        simp only [Option.some.injEq, Prod.mk.injEq] at h
        obtain ⟨hi, hwk⟩ := h
        subst hi
        obtain ⟨h1, h2, h3⟩ := wait_for_cooldown_first p samples fuel 1 j hw
        exact ⟨by omega, h2, fun k hk1 hk2 => h3 k hk1 hk2⟩

/-- C8 witness: under the conservative policy (pause at 65, resume at 55),
a first sample of 70 followed by samples of 50 makes `guard` run the work
(here `Ok 42`) only after observing the qualifying second sample. -/
theorem C8_guard_once_then_work_witness :
    ThermalCircuitBreaker.guard ThermalPolicy.conservative
        (fun n => if n = 0 then 70 else 50) (Except.ok (42 : Nat)) 3 =
      some (2, Except.ok 42) ∧
    (2 : Nat) ≤ 2 ∧
    (fun n : Nat => if n = 0 then (70 : Rat) else 50) (2 - 1) ≤
      ThermalPolicy.conservative.cooldown_c := by
  have heval : ThermalCircuitBreaker.guard ThermalPolicy.conservative
      (fun n => if n = 0 then 70 else 50) (Except.ok (42 : Nat)) 3 =
      some (2, Except.ok 42) := rfl
  have h := ((C8_guard_once_then_work Nat ThermalPolicy.conservative
      (fun n => if n = 0 then 70 else 50) (Except.ok 42) 3).2.2
      (by decide) 2 (Except.ok 42) heval)
  exact ⟨heval, h.1, h.2.1⟩

/-- C9 (amended: the presets `conservative` and `aggressive` and the
`Default` instance all satisfy `cooldown_c ≤ threshold_c`, but `custom`
stores its arguments verbatim with no validation, so a policy it produces
satisfies the invariant only when the caller's arguments do). -/
theorem C9_policy_cooldown_le_threshold :
    ThermalPolicy.conservative.cooldown_c ≤
      ThermalPolicy.conservative.threshold_c ∧
    ThermalPolicy.aggressive.cooldown_c ≤
      ThermalPolicy.aggressive.threshold_c ∧
    ThermalPolicy.default.cooldown_c ≤ ThermalPolicy.default.threshold_c ∧
    (∀ (t c : Rat) (i : Nat), (ThermalPolicy.custom t c i).threshold_c = t ∧
      (ThermalPolicy.custom t c i).cooldown_c = c) :=
  ⟨by decide, by decide, by decide, fun t c i => ⟨rfl, rfl⟩⟩

/-- C9 counterexample: `ThermalPolicy::custom(50.0, 60.0, 100)` is
accepted unvalidated and violates `cooldown_c ≤ threshold_c`. -/
theorem C9_policy_cooldown_le_threshold_counterexample :
    ¬ ((ThermalPolicy.custom 50 60 100).cooldown_c ≤
        (ThermalPolicy.custom 50 60 100).threshold_c) := by
  decide
